import Mathlib

/-!
Verification of the focus-assistant capture loop (`examples/focus-gui.py`).

The development shallowly embeds the image arithmetic performed by
`CameraHandler._do_capture` (focus metric, histogram, clipping counts,
histogram rendering) and the control flow of `CameraHandler.one_shot`,
`continuous`, `_do_continuous`, `_check_config` and `__init__` as pure
Lean functions, and proves the spec's claims about them.
-/

namespace FocusGui

/-- A decoded RGB raster as produced by `Image.open` in `_do_capture`:
width, height and per-channel pixel values (channel 0 = red, 1 = green,
2 = blue); values are byte intensities. -/
structure Img where
  w : Nat
  h : Nat
  px : Nat → Nat → Fin 3 → Nat

/-- Wrap-around index arithmetic used by `PIL.ImageChops.offset`:
the pixel at output index `i` comes from input index `i - d` modulo the
image dimension `n`. -/
def wrapIdx (n : Nat) (i : Int) : Nat := (i.emod n).toNat

/-- `ImageChops.offset(image, dx, dy)`: the image with contents shifted by
`(dx, dy)`, wrapping around the edges. -/
def offset (img : Img) (dx dy : Int) : Img where
  w := img.w
  h := img.h
  px := fun x y c =>
    img.px (wrapIdx img.w ((x : Int) - dx)) (wrapIdx img.h ((y : Int) - dy)) c

/-- `ImageChops.difference(a, b)`: absolute per-channel pixel difference. -/
def difference (a b : Img) : Img where
  w := a.w
  h := a.h
  px := fun x y c => ((a.px x y c : Int) - (b.px x y c : Int)).natAbs

/-- `image.crop((l, u, r, lo))`: the sub-image with x in `[l, r)`,
y in `[u, lo)`. -/
def crop (img : Img) (l u r lo : Nat) : Img where
  w := r - l
  h := lo - u
  px := fun x y c => img.px (l + x) (u + y) c

/-- Sum of squared pixel values of one channel, the `sum2` statistic of
`PIL.ImageStat.Stat`. -/
def sum2 (img : Img) (c : Fin 3) : Nat :=
  ∑ x ∈ Finset.range img.w, ∑ y ∈ Finset.range img.h, img.px x y c ^ 2

/-- `ImageStat.Stat(img).rms` for one band: the square root of the mean of
the squared pixel values. -/
noncomputable def rms (img : Img) (c : Fin 3) : ℝ :=
  Real.sqrt ((sum2 img c : ℝ) / ((img.w : ℝ) * (img.h : ℝ)))

/-- The focus score list emitted by `_do_capture` on channel `c`:
the vertical-shift rms plus the horizontal-shift rms, computed exactly as
in the code (offset with wrap-around, then difference, then crop, then
per-band rms). -/
noncomputable def focusScore (img : Img) : List ℝ :=
  (List.finRange 3).map fun c =>
    rms (crop (difference img (offset img 0 1)) 0 1 img.w img.h) c
      + rms (crop (difference img (offset img 1 0)) 1 0 img.w img.h) c

/-- Spec-side definition: sum of squared differences between horizontally
adjacent pixels over the valid overlap region (`x` from 1 to `w-1`). -/
def hDiffSum2 (img : Img) (c : Fin 3) : Nat :=
  ∑ x ∈ Finset.range (img.w - 1), ∑ y ∈ Finset.range img.h,
    ((img.px (x + 1) y c : Int) - (img.px x y c : Int)).natAbs ^ 2

/-- Spec-side definition: sum of squared differences between vertically
adjacent pixels over the valid overlap region (`y` from 1 to `h-1`). -/
def vDiffSum2 (img : Img) (c : Fin 3) : Nat :=
  ∑ x ∈ Finset.range img.w, ∑ y ∈ Finset.range (img.h - 1),
    ((img.px x (y + 1) c : Int) - (img.px x y c : Int)).natAbs ^ 2

/-- Spec-side definition: root-mean-square of the absolute horizontal
adjacent-pixel differences, over the overlap region of `(w-1) * h` pixels. -/
noncomputable def specHRms (img : Img) (c : Fin 3) : ℝ :=
  Real.sqrt ((hDiffSum2 img c : ℝ) / (((img.w - 1 : Nat) : ℝ) * (img.h : ℝ)))

/-- Spec-side definition: root-mean-square of the absolute vertical
adjacent-pixel differences, over the overlap region of `w * (h-1)` pixels. -/
noncomputable def specVRms (img : Img) (c : Fin 3) : ℝ :=
  Real.sqrt ((vDiffSum2 img c : ℝ) / ((img.w : ℝ) * ((img.h - 1 : Nat) : ℝ)))

/-- Spec-side definition: the 3-element focus score described by the spec,
horizontal-shift rms plus vertical-shift rms per channel. -/
noncomputable def specFocusScore (img : Img) : List ℝ :=
  (List.finRange 3).map fun c => specHRms img c + specVRms img c

/-- Number of pixels of channel `c` with intensity exactly `v`. -/
def binCount (img : Img) (c : Fin 3) (v : Nat) : Nat :=
  ∑ x ∈ Finset.range img.w, ∑ y ∈ Finset.range img.h,
    if img.px x y c = v then 1 else 0

/-- `image.histogram()` for an RGB image: 768 bin counts, the red band's
256 bins first, then green, then blue. -/
def histogram (img : Img) : List Nat :=
  ((List.range 256).map (binCount img 0) ++ (List.range 256).map (binCount img 1))
    ++ (List.range 256).map (binCount img 2)

/-- The slice `histogram[start:stop]` taken by `_do_capture` for the
channel processed with `start = 256 * c`. -/
def bandHist (img : Img) (c : Fin 3) : List Nat :=
  ((histogram img).drop (256 * c.val)).take 256

/-- The clipping list built by `_do_capture`: `band_hist[-1]` (the last
element of the 256-entry band slice) appended per colour. -/
def clippingCounts (img : Img) : List Nat :=
  (List.finRange 3).map fun c => (bandHist img c).getLastD 0

/-- `1 + max(band_hist)` is computed from this: the maximum bin count of
the band (Python `max` of a list of naturals). -/
def maxBandHist (img : Img) (c : Fin 3) : Nat :=
  (bandHist img c).foldr max 0

/-- The histogram bar-length formula of `_do_capture`:
`98 * max(0, 1 + log10((1+count)/(1+max_count))/5)`. -/
noncomputable def barLen (count maxCount : Nat) : ℝ :=
  98 * max 0 (1 + Real.logb 10 ((1 + (count : ℝ)) / (1 + (maxCount : ℝ))) / 5)

/-- The colour constants `0xff0000, 0x00ff00, 0x0000ff` iterated over by
the histogram-rendering loop, indexed by channel. -/
def channelColour : Fin 3 → Nat
  | 0 => 0xff0000
  | 1 => 0x00ff00
  | 2 => 0x0000ff

/-- The white background the 100x256 histogram image is filled with
(`Qt.white`). -/
def white : Nat := 0xffffff

/-- The horizontal pixel position `y` computed for bin `x` of channel `c`;
PyQt4 truncates the float to an int when passing it to
`QImage.setPixel`, and the value is non-negative, so this is the floor. -/
noncomputable def barX (img : Img) (c : Fin 3) (x : Nat) : Int :=
  ⌊barLen ((bandHist img c).getD x 0) (maxBandHist img c)⌋

/-- The list of `setPixel` writes performed by the rendering loop, in
order: for each colour (red, green, blue) and each bin `x` in `0..255`,
two writes at horizontal positions `y` and `y + 1` of row `x`. -/
noncomputable def renderWrites (img : Img) : List ((Int × Nat) × Nat) :=
  (List.finRange 3).flatMap fun c =>
    (List.range 256).flatMap fun x =>
      [((barX img c x, x), channelColour c),
       ((barX img c x + 1, x), channelColour c)]

/-- The rendered histogram image: starting from a white background, apply
each `setPixel` write in order; a pixel's final colour is the last write
that hit it, or white if none did. -/
noncomputable def renderedHist (img : Img) : Int × Nat → Nat :=
  (renderWrites img).foldl (fun f wr => fun q => if q = wr.1 then wr.2 else f q)
    (fun _ => white)

/-- The property asserted by the spec for the histogram image: every pixel
position strictly below the computed bar length is painted with the
channel's colour (a filled horizontal bar). -/
def filledBarClaim (img : Img) : Prop :=
  ∀ c : Fin 3, ∀ x : Nat, x < 256 → ∀ k : Nat,
    (k : ℝ) < barLen ((bandHist img c).getD x 0) (maxBandHist img c) →
    renderedHist img ((k : Int), x) = channelColour c

/-- A concrete 1x1 all-black frame, used to examine the rendering. -/
def blackPixel : Img := ⟨1, 1, fun _ _ _ => 0⟩

/-! ### Control flow of the camera handler -/

/-- The camera configuration as seen through
`gp_widget_get_child_by_name`: each lookup either fails (`none`) or
returns the setting. `imageformat` carries its current string value;
`capturesizeclass` only matters for presence. -/
structure Config where
  imageformat : Option String
  capturesizeclass : Option Nat
deriving DecidableEq

/-- The mutable state of `CameraHandler` relevant to the claims: the
`running` flag and the configuration tree. -/
structure HState where
  running : Bool
  config : Config
deriving DecidableEq

/-- The externally observable actions the handler performs, in order. -/
inductive Action where
  | lookupConfig : String → Action
  | setConfig : Action
  | capturePreview : Action
  | printMsg : String → Action
  | emitImage : Action
  | emitHistogram : Action
  | emitClipping : Action
  | emitFocus : Action
deriving DecidableEq

/-- The environment a capture runs in: the camera's response to
`gp_camera_capture_preview` (`none` models an error return `OK < GP_OK`,
`some img` a successful preview decode). -/
structure Env where
  previewResult : Option Img

/-- Whether `'raw' in value.lower()`: the lower-cased character list of
the setting value contains the letters r, a, w consecutively. -/
def startsWithRaw : List Char → Bool
  | 'r' :: 'a' :: 'w' :: _ => true
  | _ => false

/-- Recursive substring scan for `startsWithRaw` at every position. -/
def containsRaw : List Char → Bool
  | [] => false
  | c :: t => startsWithRaw (c :: t) || containsRaw t

/-- `'raw' in value.lower()` from `_check_config`. -/
def isRawFormat (v : String) : Bool :=
  containsRaw (v.toList.map Char.toLower)

/-- `CameraHandler._check_config`: look up `imageformat`; if found and its
value contains "raw", report and return failure; otherwise (including when
the lookup fails) return success. Also returns the actions performed. -/
def checkConfig (cfg : Config) : Bool × List Action :=
  match cfg.imageformat with
  | none => (true, [Action.lookupConfig "imageformat"])
  | some v =>
    if isRawFormat v then
      (false, [Action.lookupConfig "imageformat",
               Action.printMsg "Cannot preview raw images"])
    else
      (true, [Action.lookupConfig "imageformat"])

/-- `CameraHandler._do_capture`: call `gp_camera_capture_preview`; on
error print a message, clear `running` and return; on success emit the
four result events in source order. -/
def doCapture (env : Env) (s : HState) : HState × List Action :=
  match env.previewResult with
  | none =>
    ({ s with running := false },
     [Action.capturePreview, Action.printMsg "Failed to capture"])
  | some _ =>
    (s, [Action.capturePreview, Action.emitImage, Action.emitHistogram,
         Action.emitClipping, Action.emitFocus])

/-- `CameraHandler.one_shot`: return immediately when `running`; otherwise
run the config check and, if it passes, a single capture. -/
def one_shot (env : Env) (s : HState) : HState × List Action :=
  if s.running then (s, [])
  else
    match checkConfig s.config with
    | (true, as) =>
      let r := doCapture env s
      (r.1, as ++ r.2)
    | (false, as) => (s, as)

/-- `CameraHandler.__init__` (config part): look up `capturesizeclass`;
when found, set it and push the config to the camera; when the lookup
fails, skip silently. Returns the initial state and the actions. -/
def initHandler (cfg : Config) : HState × List Action :=
  match cfg.capturesizeclass with
  | none =>
    ({ running := false, config := cfg }, [Action.lookupConfig "capturesizeclass"])
  | some _ =>
    ({ running := false, config := cfg },
     [Action.lookupConfig "capturesizeclass", Action.setConfig])

/-- Whether an action is one of the four result-event emissions. -/
def isEmit : Action → Bool
  | Action.emitImage => true
  | Action.emitHistogram => true
  | Action.emitClipping => true
  | Action.emitFocus => true
  | _ => false

/-! ### The continuous-mode scheduling loop -/

/-- The state of the cooperative capture loop: the `running` flag,
the number of `do_next` events pending on the thread's event queue, and
the total number of captures executed so far. -/
structure LoopState where
  running : Bool
  pending : Nat
  captures : Nat
deriving DecidableEq

/-- Processing one queued `do_next` event (`CameraHandler.event` calling
`_do_continuous`): when no event is pending nothing happens; otherwise the
event is consumed, and if `running` is set a capture executes (clearing
`running` when the capture fails, `ok = false`) and the next `do_next`
event is posted — `_do_continuous` posts it even after a failed capture.
When `running` is clear the event is consumed with no capture. -/
def processNext (ok : Bool) (s : LoopState) : LoopState :=
  if s.pending = 0 then s
  else if s.running then
    { running := s.running && ok, pending := s.pending - 1 + 1,
      captures := s.captures + 1 }
  else
    { s with pending := s.pending - 1 }

/-- `CameraHandler.continuous` invoked while running: the stop request,
which just clears the flag. -/
def stopRequest (s : LoopState) : LoopState := { s with running := false }

/-- Run the loop over a list of capture outcomes, processing one queued
event per outcome. -/
def runLoop (oks : List Bool) (s : LoopState) : LoopState :=
  oks.foldl (fun st ok => processNext ok st) s

/-! ### Theorems -/

/-- Helper: once the running flag is clear, processing queued events never
executes a capture and never sets the flag again. -/
lemma runLoop_of_not_running (oks : List Bool) (s : LoopState)
    (h : s.running = false) :
    (runLoop oks s).captures = s.captures ∧ (runLoop oks s).running = false := by
  induction oks generalizing s with
  | nil => exact ⟨rfl, h⟩
  | cons ok t ih =>
    have hstep : (processNext ok s).running = false ∧
        (processNext ok s).captures = s.captures := by
      unfold processNext
      split
      · exact ⟨h, rfl⟩
      · rw [h]
        simp [h]
    have := ih (processNext ok s) hstep.1
    unfold runLoop at this ⊢
    simp only [List.foldl_cons]
    exact ⟨this.1.trans hstep.2, this.2⟩

/-- C5: after a stop request issued with `pending = N` events queued, the
total number of captures ever executed stays within N+1 of the count at
the stop request (in fact no further capture executes at all). -/
theorem stop_bounds_further_captures (s : LoopState) (oks : List Bool) :
    (runLoop oks (stopRequest s)).captures ≤ s.captures + (s.pending + 1) := by
  have h := runLoop_of_not_running oks (stopRequest s) rfl
  have : (runLoop oks (stopRequest s)).captures = s.captures := h.1
  omega

/-- C9: invoking `one_shot` while continuous mode is running is a no-op:
no action is performed and the handler state is unchanged. -/
theorem one_shot_noop_when_running (env : Env) (s : HState)
    (h : s.running = true) : one_shot env s = (s, []) := by
  simp [one_shot, h]

/-- Witness for `one_shot_noop_when_running` at a concrete running state. -/
theorem one_shot_noop_when_running_witness :
    ({ running := true, config := ⟨none, none⟩ } : HState).running = true ∧
      one_shot ⟨none⟩ { running := true, config := ⟨none, none⟩ } =
        ({ running := true, config := ⟨none, none⟩ }, []) :=
  ⟨rfl, one_shot_noop_when_running ⟨none⟩ _ rfl⟩

/-- C4: with an image-format setting whose value contains "raw",
`one_shot` never performs the preview-capture call; when the handler is
idle, the trace is exactly the config lookup followed by the user-visible
rejection message, so the check happens before any capture. -/
theorem raw_format_blocks_capture (env : Env) (s : HState) (v : String)
    (hfmt : s.config.imageformat = some v) (hraw : isRawFormat v = true) :
    Action.capturePreview ∉ (one_shot env s).2 ∧
      (s.running = false →
        (one_shot env s).2 =
          [Action.lookupConfig "imageformat",
           Action.printMsg "Cannot preview raw images"]) := by
  cases hr : s.running with
  | true => simp [one_shot, hr]
  | false => simp [one_shot, hr, checkConfig, hfmt, hraw]

/-- Witness for `raw_format_blocks_capture` at a concrete RAW config. -/
theorem raw_format_blocks_capture_witness :
    ({ running := false, config := ⟨some "raw", none⟩ } : HState).config.imageformat
        = some "raw" ∧
      isRawFormat "raw" = true ∧
      Action.capturePreview ∉
        (one_shot ⟨none⟩ { running := false, config := ⟨some "raw", none⟩ }).2 :=
  ⟨rfl, by decide,
    (raw_format_blocks_capture ⟨none⟩
      { running := false, config := ⟨some "raw", none⟩ } "raw" rfl (by decide)).1⟩

/-- C6: when the preview-capture call fails, the failure is non-fatal and
final: the running flag is cleared, the failure is logged, exactly one
capture attempt was made (no retry), and no result event is emitted. -/
theorem capture_error_nonfatal (env : Env) (s : HState)
    (h : env.previewResult = none) :
    (doCapture env s).1.running = false ∧
      Action.printMsg "Failed to capture" ∈ (doCapture env s).2 ∧
      (doCapture env s).2.count Action.capturePreview = 1 ∧
      (∀ a ∈ (doCapture env s).2, isEmit a = false) ∧
      (one_shot env s).2.count Action.capturePreview ≤ 1 := by
  refine ⟨?_, ?_, ?_, ?_, ?_⟩
  · simp [doCapture, h]
  · simp [doCapture, h]
  · simp [doCapture, h]
  · simp only [doCapture, h]
    intro a ha
    fin_cases ha <;> rfl
  · cases hr : s.running with
    | true => simp [one_shot, hr]
    | false =>
      cases hfmt : s.config.imageformat with
      | none => simp [one_shot, hr, checkConfig, hfmt, doCapture, h]
      | some v =>
        cases hraw : isRawFormat v with
        | true => simp [one_shot, hr, checkConfig, hfmt, hraw]
        | false => simp [one_shot, hr, checkConfig, hfmt, hraw, doCapture, h]

/-- Witness for `capture_error_nonfatal` at a concrete failing capture. -/
theorem capture_error_nonfatal_witness :
    (Env.mk none).previewResult = none ∧
      (doCapture ⟨none⟩ { running := true, config := ⟨none, none⟩ }).1.running
        = false :=
  ⟨rfl, (capture_error_nonfatal ⟨none⟩
    { running := true, config := ⟨none, none⟩ } rfl).1⟩

/-- C10: when the preview-capture call fails, none of the four result
events (image, histogram, clipping, focus) is emitted. -/
theorem capture_error_no_events (env : Env) (s : HState)
    (h : env.previewResult = none) :
    Action.emitImage ∉ (doCapture env s).2 ∧
      Action.emitHistogram ∉ (doCapture env s).2 ∧
      Action.emitClipping ∉ (doCapture env s).2 ∧
      Action.emitFocus ∉ (doCapture env s).2 := by
  simp [doCapture, h]

/-- Witness for `capture_error_no_events` at a concrete failing capture. -/
theorem capture_error_no_events_witness :
    (Env.mk none).previewResult = none ∧
      Action.emitImage ∉
        (doCapture ⟨none⟩ { running := false, config := ⟨none, none⟩ }).2 :=
  ⟨rfl, (capture_error_no_events ⟨none⟩
    { running := false, config := ⟨none, none⟩ } rfl).1⟩

/-- C8: a failed `capturesizeclass` lookup makes initialisation complete
without pushing any config to the camera, and a failed `imageformat`
lookup makes the pre-capture check succeed, so the capture proceeds. -/
theorem config_lookup_failure_skipped (cfg : Config) :
    (cfg.capturesizeclass = none →
      Action.setConfig ∉ (initHandler cfg).2 ∧
        (initHandler cfg).1 = { running := false, config := cfg }) ∧
      (cfg.imageformat = none → (checkConfig cfg).1 = true) := by
  constructor
  · intro h
    simp [initHandler, h]
  · intro h
    simp [checkConfig, h]

/-- Witness for `config_lookup_failure_skipped` at a config where both
lookups fail. -/
theorem config_lookup_failure_skipped_witness :
    (Config.mk none none).capturesizeclass = none ∧
      (Config.mk none none).imageformat = none ∧
      Action.setConfig ∉ (initHandler ⟨none, none⟩).2 ∧
      (checkConfig ⟨none, none⟩).1 = true :=
  ⟨rfl, rfl, ((config_lookup_failure_skipped ⟨none, none⟩).1 rfl).1,
    (config_lookup_failure_skipped ⟨none, none⟩).2 rfl⟩

/-- C2: the bar-length formula is monotonically non-decreasing in the bin
count for positive counts (with the band maximum fixed), is never below
zero, and never exceeds the fixed width 98 when the count is at most the
band maximum. -/
theorem barLen_monotone_clamped (c₁ c₂ m : Nat) (h0 : 0 < c₁)
    (h12 : c₁ ≤ c₂) :
    barLen c₁ m ≤ barLen c₂ m ∧ 0 ≤ barLen c₁ m ∧
      (c₂ ≤ m → barLen c₂ m ≤ 98) := by
  have hb : (1 : ℝ) < 10 := by norm_num
  have hm : (0 : ℝ) < 1 + (m : ℝ) := by positivity
  refine ⟨?_, ?_, ?_⟩
  · unfold barLen
    have hlog : Real.logb 10 ((1 + (c₁ : ℝ)) / (1 + (m : ℝ)))
        ≤ Real.logb 10 ((1 + (c₂ : ℝ)) / (1 + (m : ℝ))) := by
      apply Real.logb_le_logb_of_le hb (by positivity)
      gcongr
    have : max 0 (1 + Real.logb 10 ((1 + (c₁ : ℝ)) / (1 + (m : ℝ))) / 5)
        ≤ max 0 (1 + Real.logb 10 ((1 + (c₂ : ℝ)) / (1 + (m : ℝ))) / 5) := by
      apply max_le_max le_rfl
      linarith
    linarith
  · unfold barLen
    have := le_max_left (0 : ℝ)
      (1 + Real.logb 10 ((1 + (c₁ : ℝ)) / (1 + (m : ℝ))) / 5)
    linarith
  · intro hcm
    unfold barLen
    have hr1 : (1 + (c₂ : ℝ)) / (1 + (m : ℝ)) ≤ 1 := by
      rw [div_le_one hm]
      exact add_le_add_left (by exact_mod_cast hcm) 1
    have hlog : Real.logb 10 ((1 + (c₂ : ℝ)) / (1 + (m : ℝ))) ≤ 0 :=
      Real.logb_nonpos hb (by positivity) hr1
    have hmax : max 0 (1 + Real.logb 10 ((1 + (c₂ : ℝ)) / (1 + (m : ℝ))) / 5)
        ≤ 1 := by
      apply max_le (by norm_num)
      linarith
    linarith

/-- Witness for `barLen_monotone_clamped` at counts 1 ≤ 2 with maximum 3. -/
theorem barLen_monotone_clamped_witness :
    (0 < 1 ∧ 1 ≤ 2 ∧ 2 ≤ 3) ∧
      barLen 1 3 ≤ barLen 2 3 ∧ 0 ≤ barLen 1 3 ∧ barLen 2 3 ≤ 98 := by
  have h := barLen_monotone_clamped 1 2 3 (by decide) (by decide)
  exact ⟨⟨by decide, by decide, by decide⟩, h.1, h.2.1, h.2.2 (by decide)⟩

/-- Helper: the band slice for channel 0 is the red bin-count list. -/
lemma bandHist_zero (img : Img) :
    bandHist img 0 = (List.range 256).map (binCount img 0) := by
  have hA : ((List.range 256).map (binCount img 0)).length = 256 := by simp
  rw [show bandHist img 0 = ((histogram img).drop 0).take 256 from rfl,
    List.drop_zero, histogram, List.append_assoc, List.take_left' hA]

/-- Helper: the band slice for channel 1 is the green bin-count list. -/
lemma bandHist_one (img : Img) :
    bandHist img 1 = (List.range 256).map (binCount img 1) := by
  have hA : ((List.range 256).map (binCount img 0)).length = 256 := by simp
  have hB : ((List.range 256).map (binCount img 1)).length = 256 := by simp
  rw [show bandHist img 1 = ((histogram img).drop 256).take 256 from rfl,
    histogram, List.append_assoc, List.drop_left' hA, List.take_left' hB]

/-- Helper: the band slice for channel 2 is the blue bin-count list. -/
lemma bandHist_two (img : Img) :
    bandHist img 2 = (List.range 256).map (binCount img 2) := by
  have hAB : ((List.range 256).map (binCount img 0)
      ++ (List.range 256).map (binCount img 1)).length = 512 := by simp
  rw [show bandHist img 2 = ((histogram img).drop 512).take 256 from rfl,
    histogram, List.drop_left' hAB, List.take_of_length_le (by simp)]

/-- Helper: every band slice is that channel's 256 bin counts in order. -/
lemma bandHist_eq_map (img : Img) (c : Fin 3) :
    bandHist img c = (List.range 256).map (binCount img c) := by
  fin_cases c
  · exact bandHist_zero img
  · exact bandHist_one img
  · exact bandHist_two img

/-- Helper: the last element of a 256-entry mapped range is the value at
index 255. -/
lemma getLastD_map_range (f : Nat → Nat) :
    ((List.range 256).map f).getLastD 0 = f 255 := by
  rw [show (256 : Nat) = 255 + 1 from rfl, List.range_succ, List.map_append]
  simp

/-- C3: the emitted clipping list holds, per channel, exactly the raw
count of the top (index 255) histogram bin of that channel. -/
theorem clipping_eq_top_bin (img : Img) :
    clippingCounts img = (List.finRange 3).map fun c => binCount img c 255 := by
  unfold clippingCounts
  apply List.map_congr_left
  intro c _
  rw [bandHist_eq_map, getLastD_map_range]

/-- Helper: the wrap-around index is the identity on in-range indices. -/
lemma wrapIdx_coe (n x : Nat) (h : x < n) : wrapIdx n (x : Int) = x := by
  show ((x : Int) % (n : Int)).toNat = x
  rw [Int.emod_eq_of_lt (by positivity) (by exact_mod_cast h)]
  exact Int.toNat_natCast x

/-- Helper: the cropped horizontal difference image has the same sum of
squares as the direct adjacent-pixel differences over the overlap region:
the crop discards exactly the wrapped-around column. -/
lemma sum2_crop_horizontal (img : Img) (c : Fin 3) :
    sum2 (crop (difference img (offset img 1 0)) 1 0 img.w img.h) c
      = hDiffSum2 img c := by
  simp only [sum2, hDiffSum2, crop, difference, offset, Nat.sub_zero,
    Nat.zero_add, sub_zero]
  apply Finset.sum_congr rfl
  intro x hx
  apply Finset.sum_congr rfl
  intro y hy
  rw [Finset.mem_range] at hx hy
  have h1 : ((1 + x : Nat) : Int) - 1 = (x : Int) := by push_cast; ring
  rw [h1, wrapIdx_coe img.w x (by omega), wrapIdx_coe img.h y hy,
    Nat.add_comm 1 x]

/-- Helper: the cropped vertical difference image has the same sum of
squares as the direct adjacent-pixel differences over the overlap region:
the crop discards exactly the wrapped-around row. -/
lemma sum2_crop_vertical (img : Img) (c : Fin 3) :
    sum2 (crop (difference img (offset img 0 1)) 0 1 img.w img.h) c
      = vDiffSum2 img c := by
  simp only [sum2, vDiffSum2, crop, difference, offset, Nat.sub_zero,
    Nat.zero_add, sub_zero]
  apply Finset.sum_congr rfl
  intro x hx
  apply Finset.sum_congr rfl
  intro y hy
  rw [Finset.mem_range] at hx hy
  have h1 : ((1 + y : Nat) : Int) - 1 = (y : Int) := by push_cast; ring
  rw [h1, wrapIdx_coe img.w x hx, wrapIdx_coe img.h y (by omega),
    Nat.add_comm 1 y]

/-- Helper: the code's horizontal-shift band rms equals the spec's
horizontal adjacent-difference rms. -/
lemma rms_crop_horizontal (img : Img) (c : Fin 3) :
    rms (crop (difference img (offset img 1 0)) 1 0 img.w img.h) c
      = specHRms img c := by
  unfold rms specHRms
  rw [sum2_crop_horizontal]
  simp only [crop, difference, offset, Nat.sub_zero]

/-- Helper: the code's vertical-shift band rms equals the spec's
vertical adjacent-difference rms. -/
lemma rms_crop_vertical (img : Img) (c : Fin 3) :
    rms (crop (difference img (offset img 0 1)) 0 1 img.w img.h) c
      = specVRms img c := by
  unfold rms specVRms
  rw [sum2_crop_vertical]
  simp only [crop, difference, offset, Nat.sub_zero]

/-- C1: the emitted focus score is, per channel, the rms of the absolute
horizontal adjacent-pixel differences over the overlap region plus the
rms of the vertical ones, and it is a 3-element list. -/
theorem focusScore_eq_spec (img : Img) :
    focusScore img = specFocusScore img ∧ (focusScore img).length = 3 := by
  constructor
  · unfold focusScore specFocusScore
    apply List.map_congr_left
    intro c _
    rw [rms_crop_horizontal, rms_crop_vertical, add_comm]
  · simp [focusScore]

/-- Helper: a pixel no write ever targets keeps its initial colour. -/
lemma foldl_setPixel_of_not_mem (l : List ((Int × Nat) × Nat))
    (f0 : Int × Nat → Nat) (p : Int × Nat) (h : ∀ wr ∈ l, wr.1 ≠ p) :
    (l.foldl (fun f wr => fun q => if q = wr.1 then wr.2 else f q) f0) p
      = f0 p := by
  induction l generalizing f0 with
  | nil => rfl
  | cons a t ih =>
    have hmem : ∀ wr ∈ t, wr.1 ≠ p := fun wr hw => h wr (List.mem_cons_of_mem a hw)
    rw [List.foldl_cons, ih _ hmem]
    show (if p = a.1 then a.2 else f0 p) = f0 p
    rw [if_neg (Ne.symm (h a (List.mem_cons_self a t)))]

/-- Helper: characterisation of the `setPixel` writes of the rendering
loop: exactly two writes per channel and bin, at horizontal positions
`barX` and `barX + 1` of the bin's row, in the channel's colour. -/
lemma mem_renderWrites_iff (img : Img) (wr : (Int × Nat) × Nat) :
    wr ∈ renderWrites img ↔
      ∃ c : Fin 3, ∃ x : Nat, x < 256 ∧
        (wr = ((barX img c x, x), channelColour c) ∨
         wr = ((barX img c x + 1, x), channelColour c)) := by
  unfold renderWrites
  simp only [List.mem_flatMap, List.mem_finRange, true_and, List.mem_range,
    List.mem_cons, List.not_mem_nil, or_false, List.mem_singleton]

/-- Helper: the bar length at a count equal to the band maximum is
exactly 98 (`log10(1) = 0`). -/
lemma barLen_self (m : Nat) : barLen m m = 98 := by
  unfold barLen
  rw [div_self (ne_of_gt (by positivity)), Real.logb_one]
  norm_num

set_option maxRecDepth 10000 in
/-- Helper: the 1x1 black frame has bin count 1 in bin 0 of every band. -/
lemma bandHist_blackPixel_getD (c : Fin 3) :
    (bandHist blackPixel c).getD 0 0 = 1 := by
  fin_cases c <;> decide

set_option maxRecDepth 10000 in
/-- Helper: the 1x1 black frame has maximum bin count 1 in every band. -/
lemma maxBandHist_blackPixel (c : Fin 3) : maxBandHist blackPixel c = 1 := by
  fin_cases c <;> decide

/-- Helper: for the 1x1 black frame every channel's bin-0 write lands at
horizontal position 98. -/
lemma barX_blackPixel (c : Fin 3) : barX blackPixel c 0 = 98 := by
  unfold barX
  rw [bandHist_blackPixel_getD, maxBandHist_blackPixel, barLen_self]
  norm_num

/-- Helper: the rendered histogram of the 1x1 black frame leaves the
pixel at the start of row 0 white: no write targets it. -/
lemma renderedHist_blackPixel_origin :
    renderedHist blackPixel ((0 : Int), (0 : Nat)) = white := by
  unfold renderedHist
  apply foldl_setPixel_of_not_mem
  intro wr hw
  rw [mem_renderWrites_iff] at hw
  obtain ⟨c, x, hx, hcase⟩ := hw
  rcases hcase with rfl | rfl <;> intro hq
  · have hx0 : x = 0 := congrArg Prod.snd hq
    subst hx0
    rw [barX_blackPixel c] at hq
    exact absurd (congrArg Prod.fst hq) (by norm_num)
  · have hx0 : x = 0 := congrArg Prod.snd hq
    subst hx0
    rw [barX_blackPixel c] at hq
    exact absurd (congrArg Prod.fst hq) (by norm_num)

/-- C7 counterexample: for the 1x1 black frame, the red channel's bin 0
has bar length 98, so the claim demands the pixel at the start of row 0
be red; but the rendering only marks positions 98 and 99 and the pixel
stays white. -/
theorem filledBarClaim_false : ¬ filledBarClaim blackPixel := by
  intro hclaim
  have h98 : barLen ((bandHist blackPixel 0).getD 0 0)
      (maxBandHist blackPixel 0) = 98 := by
    rw [bandHist_blackPixel_getD, maxBandHist_blackPixel, barLen_self]
  have h := hclaim 0 0 (by norm_num) 0 (by rw [h98]; norm_num)
  rw [Nat.cast_zero, renderedHist_blackPixel_origin] at h
  exact absurd h (by decide)

/-- C7 amended: for every frame, the rendering loop paints, per channel
and per bin, exactly the two pixels at horizontal positions `⌊barlen⌋`
and `⌊barlen⌋ + 1` of that bin's row in the channel's colour — an
outline of the bar, not a filled bar. -/
theorem renderWrites_endpoints_only (img : Img) (wr : (Int × Nat) × Nat) :
    wr ∈ renderWrites img ↔
      ∃ c : Fin 3, ∃ x : Nat, x < 256 ∧
        (wr = ((barX img c x, x), channelColour c) ∨
         wr = ((barX img c x + 1, x), channelColour c)) :=
  mem_renderWrites_iff img wr

end FocusGui
